import Mathlib

/-!
# Verification of the polymarket_exe decision-and-execution pipeline

A shallow embedding of the core of the arbitrage bot: the opportunity
detector (`src/core/opportunity-detector.js`), the risk manager
(`src/core/risk-manager.js`), the order executor (`order-executor.js`),
the repository layer over the SQLite tables (`database/index.js`), and
the three entry points that can start an execution (the scanning loop in
the main entry file, the REST approve/reject routes in `api/routes.js`,
and the websocket approve/reject handlers in `websocket.js`).

Numbers (prices, sizes, P&L) are embedded as rationals; SQL rows as
Lean structures; each stateful operation is a function from a database
state (plus the responses of the external exchange client for that call)
to a new database state and the operation's returned value.  External
side effects that the claims mention (order-cancellation requests sent
to the exchange) are returned as part of the operation's result so that
theorems can speak about them.  Timestamps, log lines, the Socket.io
event emitter and the order-book snapshot table are not modelled: no
claim depends on them.
-/

namespace Polybot

/-- One price level of an order book side (`{price, size}` objects of the
CLOB client).  Prices are rationals; `parseFloat` is the identity here. -/
structure Level where
  price : ℚ
  size : ℚ
  deriving Repr, DecidableEq

/-- A two-sided order book as returned by `polyClient.getOrderBook`:
asks ascending by price, bids descending (best first). -/
structure OrderBook where
  bids : List Level
  asks : List Level
  deriving Repr, DecidableEq

/-- A candidate market as produced by the market scanner
(`scanMarkets` in `market-scanner.js`).  Expiry timestamps are opaque
rationals; only the fields the detector reads are kept. -/
structure Market where
  conditionId : String
  question : String
  yesTokenId : String
  noTokenId : String
  endDate : Option ℚ
  deriving Repr, DecidableEq

/-- The singleton `settings` row (schema.sql).  `active_currencies` and
`scan_interval_ms` are carried for fidelity but read only by the
scanner, which is outside the claims. -/
structure Settings where
  position_size : ℚ
  profit_threshold : ℚ
  auto_mode : Bool
  kill_switch : Bool
  daily_loss_limit : ℚ
  max_open_positions : ℕ
  active_currencies : List String
  scan_interval_ms : ℚ
  deriving Repr, DecidableEq

/-- Result of `polyClient.getBalance` (collateral balance/allowance). -/
structure Balance where
  balance : ℚ
  allowance : ℚ
  deriving Repr, DecidableEq

/-- A `daily_pnl` row for today's date. -/
structure DailyPnl where
  total_trades : ℕ
  winning_trades : ℕ
  realized_pnl : ℚ
  deriving Repr, DecidableEq

/-- An `alerts` row (`db.alerts.create`); the JSON `data` column is not
modelled. -/
structure Alert where
  kind : String
  severity : String
  message : String
  deriving Repr, DecidableEq

/-- A `trades` row (schema.sql).  `created_at`/`settled_at` timestamps
are not modelled. -/
structure Trade where
  id : ℕ
  market_id : String
  market_question : String
  yes_token_id : String
  no_token_id : String
  yes_order_id : Option String
  no_order_id : Option String
  yes_price : ℚ
  no_price : ℚ
  total_cost : ℚ
  position_size : ℚ
  expected_profit : ℚ
  status : String
  settlement_result : Option String
  actual_profit : Option ℚ
  deriving Repr, DecidableEq

/-- A `pending_approvals` row (schema.sql).  Note the table has *no*
liquidity columns: an approval row carries fewer fields than the
in-memory opportunity object the detector produced. -/
structure PendingOpp where
  id : ℕ
  market_id : String
  market_question : String
  yes_token_id : String
  no_token_id : String
  yes_price : ℚ
  no_price : ℚ
  spread : ℚ
  expected_profit : ℚ
  expires_at : Option ℚ
  status : String
  deriving Repr, DecidableEq

/-- The in-memory opportunity object as consumed by `canTrade` and
`executeTrade`.  The liquidity fields are `Option` because the object
may come either from the detector (fields present) or from a
`pending_approvals` row (no such columns, i.e. JS `undefined`). -/
structure Opportunity where
  market_id : String
  market_question : String
  yes_token_id : String
  no_token_id : String
  yes_price : ℚ
  no_price : ℚ
  spread : ℚ
  expected_profit : ℚ
  yes_liquidity : Option ℚ
  no_liquidity : Option ℚ
  expires_at : Option ℚ
  deriving Repr, DecidableEq

/-- The full object `analyzeMarket` returns: an `Opportunity` plus the
`total_cost` field (the `yes_book`/`no_book` display sub-objects are
not modelled; nothing reads them). -/
structure DetectedOpp extends Opportunity where
  total_cost : ℚ
  deriving Repr, DecidableEq

/-- The in-memory opportunity object a `pending_approvals` row turns
into when the approve handlers pass it on: the liquidity fields do not
exist on the row, i.e. they are `undefined` (`none`). -/
def PendingOpp.toOpportunity (p : PendingOpp) : Opportunity where
  market_id := p.market_id
  market_question := p.market_question
  yes_token_id := p.yes_token_id
  no_token_id := p.no_token_id
  yes_price := p.yes_price
  no_price := p.no_price
  spread := p.spread
  expected_profit := p.expected_profit
  yes_liquidity := none
  no_liquidity := none
  expires_at := p.expires_at

/-- The whole SQLite database, restricted to the tables the claims
touch. `nextTradeId`/`nextPendingId` model the AUTOINCREMENT keys. -/
structure DbState where
  settings : Settings
  trades : List Trade
  nextTradeId : ℕ
  pending : List PendingOpp
  nextPendingId : ℕ
  pnlToday : Option DailyPnl
  alerts : List Alert
  deriving Repr, DecidableEq

/-! ## Repository layer (`database/index.js`) -/

/-- `db.trades.getById(id)`: `SELECT * FROM trades WHERE id = ?`. -/
def tradesGetById (trades : List Trade) (id : ℕ) : Option Trade :=
  trades.find? (fun t => t.id == id)

/-- `db.trades.update(id, fields)`: `UPDATE trades SET ... WHERE id = ?`;
`f` sets exactly the fields passed at the call site. -/
def tradesUpdate (trades : List Trade) (id : ℕ) (f : Trade → Trade) : List Trade :=
  trades.map (fun t => if t.id == id then f t else t)

/-- `db.trades.countOpen()`: count of trades with status in
`('pending', 'placed', 'partial')`. -/
def tradesCountOpen (trades : List Trade) : ℕ :=
  (trades.filter (fun t =>
    t.status == "pending" || t.status == "placed" || t.status == "partial")).length

/-- `db.pending.getById(id)`. -/
def pendingGetById (pending : List PendingOpp) (id : ℕ) : Option PendingOpp :=
  pending.find? (fun p => p.id == id)

/-- `db.pending.getPending()`: rows with status `'pending'`. -/
def pendingGetPending (pending : List PendingOpp) : List PendingOpp :=
  pending.filter (fun p => p.status == "pending")

/-- `db.pending.updateStatus(id, status)`:
`UPDATE pending_approvals SET status = ? WHERE id = ?`. -/
def pendingUpdateStatus (pending : List PendingOpp) (id : ℕ) (status : String) :
    List PendingOpp :=
  pending.map (fun p => if p.id == id then { p with status := status } else p)

/-- `db.pending.deleteAll()`:
`DELETE FROM pending_approvals WHERE status = 'pending'`. -/
def pendingDeleteAll (pending : List PendingOpp) : List PendingOpp :=
  pending.filter (fun p => !(p.status == "pending"))

/-- `db.pending.expireOld()` at time `now`: set status `'expired'` on
rows with status `'pending'` whose `expires_at` has passed. -/
def pendingExpireOld (pending : List PendingOpp) (now : ℚ) : List PendingOpp :=
  pending.map (fun p =>
    if p.status == "pending" && (match p.expires_at with
      | some e => decide (e < now)
      | none => false) then { p with status := "expired" } else p)

/-- `db.pending.create(opportunity)`: insert with status `'pending'`. -/
def pendingCreateRow (opp : Opportunity) (id : ℕ) : PendingOpp where
  id := id
  market_id := opp.market_id
  market_question := opp.market_question
  yes_token_id := opp.yes_token_id
  no_token_id := opp.no_token_id
  yes_price := opp.yes_price
  no_price := opp.no_price
  spread := opp.spread
  expected_profit := opp.expected_profit
  expires_at := opp.expires_at
  status := "pending"

/-- `db.pnl.incrementTrades(today, profit)`: bump today's aggregate, or
create the row if today has none. -/
def pnlIncrementTrades (pnl : Option DailyPnl) (profit : ℚ) : Option DailyPnl :=
  match pnl with
  | some p => some
      { p with
        total_trades := p.total_trades + 1
        winning_trades := p.winning_trades + (if 0 < profit then 1 else 0)
        realized_pnl := p.realized_pnl + profit }
  | none => some
      { total_trades := 1
        winning_trades := if 0 < profit then 1 else 0
        realized_pnl := profit }

/-! ## Opportunity Detector (`core/opportunity-detector.js`) -/

/-- `calculateLiquidity(orders, levels = 5)`: sum of `price * size` over
the top 5 levels. -/
def calculateLiquidity (orders : List Level) : ℚ :=
  (orders.take 5).foldl (fun total o => total + o.price * o.size) 0

/-- `getBestPrice(orders)`: the first level's price, `null` on an empty
list. -/
def getBestPrice (orders : List Level) : Option ℚ :=
  orders.head?.map (fun o => o.price)

/-- JS truthiness of `getBestPrice`'s result as used in
`if (!yesBestAsk || !noBestAsk)`: falsy when `null` or `0`. -/
def bestPriceFalsy (v : Option ℚ) : Bool :=
  match v with
  | none => true
  | some q => q == 0

/-- `analyzeMarket(market)` given settings and the two fetched order books
(the `try`/`catch` around the fetch returns `null` on a fetch error and
is not part of this pure core; the snapshot write has no effect the
claims observe). -/
def analyzeMarket (settings : Settings) (market : Market)
    (yesBook noBook : OrderBook) : Option DetectedOpp :=
  let threshold := settings.profit_threshold
  let positionSize := settings.position_size
  let yesBestAsk := getBestPrice yesBook.asks
  let noBestAsk := getBestPrice noBook.asks
  if bestPriceFalsy yesBestAsk || bestPriceFalsy noBestAsk then
    none
  else
    match yesBestAsk, noBestAsk with
    | some yAsk, some nAsk =>
      let totalCost := yAsk + nAsk
      let spread := 1 - totalCost
      if spread < threshold then
        none
      else
        let yesLiquidity := calculateLiquidity yesBook.asks
        let noLiquidity := calculateLiquidity noBook.asks
        let shares := positionSize / totalCost
        let expectedProfit := shares * spread
        some
          { market_id := market.conditionId
            market_question := market.question
            yes_token_id := market.yesTokenId
            no_token_id := market.noTokenId
            yes_price := yAsk
            no_price := nAsk
            total_cost := totalCost
            spread := spread
            expected_profit := expectedProfit
            yes_liquidity := some yesLiquidity
            no_liquidity := some noLiquidity
            expires_at := market.endDate }
    | _, _ => none

/-! ## Risk Manager (`core/risk-manager.js`) -/

/-- The structured result of `canTrade`:
`{allowed: bool, reason?: string}`. -/
structure CanTradeRes where
  allowed : Bool
  reason : Option String
  deriving Repr, DecidableEq

/-- `activateKillSwitch(reason)`: set `kill_switch`, best-effort
`cancelAllOrders` on the exchange (external; its failure is swallowed
and has no database effect), `db.pending.deleteAll()`, and a critical
alert.  The optional emitter only relays the event. -/
def activateKillSwitch (st : DbState) (reason : String) : DbState :=
  { st with
    settings := { st.settings with kill_switch := true }
    pending := pendingDeleteAll st.pending
    alerts := st.alerts ++
      [{ kind := "kill_switch", severity := "critical",
         message := "KILL SWITCH ACTIVATED: " ++ reason }] }

/-- `deactivateKillSwitch()`: clear the flag and record an info alert. -/
def deactivateKillSwitch (st : DbState) : DbState :=
  { st with
    settings := { st.settings with kill_switch := false }
    alerts := st.alerts ++
      [{ kind := "kill_switch", severity := "info",
         message := "Kill switch deactivated - trading resumed" }] }

/-- `toggleKillSwitch()`. -/
def toggleKillSwitch (st : DbState) : DbState :=
  if st.settings.kill_switch then deactivateKillSwitch st
  else activateKillSwitch st "Manual activation"

/-- JS `a < b` where `a` may be `undefined` (an absent column):
`undefined < b` is `false`. -/
def jsLtUndef (a : Option ℚ) (b : ℚ) : Bool :=
  match a with
  | some q => q < b
  | none => false

/-- `canTrade(opportunity)`: the seven-check pre-trade gate.  `bal` is
the balance the external `polyClient.getBalance()` call returned (that
call never throws).  The denial reasons for checks 5 and 6 interpolate
`toFixed` float formatting in the source; the numbers are elided here,
the reason text is otherwise verbatim. -/
def canTrade (st : DbState) (opp : Opportunity) (bal : Balance) :
    DbState × CanTradeRes :=
  let settings := st.settings
  -- Check 1: kill switch
  if settings.kill_switch then
    (st, { allowed := false, reason := some "Kill switch is active" })
  else
    -- Check 3: daily loss limit (check 2 is done at a higher level)
    let lossHit : Bool :=
      match st.pnlToday with
      | some p => p.realized_pnl < -settings.daily_loss_limit
      | none => false
    if lossHit then
      (activateKillSwitch st "Daily loss limit exceeded",
       { allowed := false, reason := some "Daily loss limit exceeded" })
    else
      -- Check 4: position limits
      let openPositions := tradesCountOpen st.trades
      let maxPositions := settings.max_open_positions
      if maxPositions ≤ openPositions then
        (st, { allowed := false,
               reason := some s!"Maximum open positions reached ({openPositions}/{maxPositions})" })
      -- Check 5: balance
      else if bal.balance < settings.position_size then
        (st, { allowed := false, reason := some "Insufficient balance" })
      -- Check 6: profit threshold
      else if opp.spread < settings.profit_threshold then
        (st, { allowed := false, reason := some "Below profit threshold" })
      else
        -- Check 7: minimum liquidity (2x position size each side)
        let minLiquidity := settings.position_size * 2
        if jsLtUndef opp.yes_liquidity minLiquidity ||
           jsLtUndef opp.no_liquidity minLiquidity then
          (st, { allowed := false, reason := some "Insufficient liquidity" })
        else
          (st, { allowed := true, reason := none })

/-- The `RiskStatus` snapshot `getRiskStatus()` assembles. -/
structure RiskStatus where
  kill_switch : Bool
  auto_mode : Bool
  balance : ℚ
  open_positions : ℕ
  max_positions : ℕ
  daily_pnl : ℚ
  daily_loss_limit : ℚ
  loss_limit_remaining : ℚ
  position_size : ℚ
  can_trade : Bool
  deriving Repr, DecidableEq

/-- `todayPnL?.realized_pnl || 0` (the `|| 0` also maps a zero P&L to
zero, so `Option.getD`-style collapse is exact). -/
def dailyPnlOf (pnl : Option DailyPnl) : ℚ :=
  match pnl with
  | some p => p.realized_pnl
  | none => 0

/-- `getRiskStatus()` given the fetched balance. -/
def getRiskStatus (st : DbState) (bal : Balance) : RiskStatus :=
  let settings := st.settings
  let openPositions := tradesCountOpen st.trades
  let dailyPnL := dailyPnlOf st.pnlToday
  let lossLimitRemaining := settings.daily_loss_limit + dailyPnL
  { kill_switch := settings.kill_switch
    auto_mode := settings.auto_mode
    balance := bal.balance
    open_positions := openPositions
    max_positions := settings.max_open_positions
    daily_pnl := dailyPnL
    daily_loss_limit := settings.daily_loss_limit
    loss_limit_remaining := lossLimitRemaining
    position_size := settings.position_size
    can_trade := !settings.kill_switch &&
      openPositions < settings.max_open_positions &&
      settings.position_size ≤ bal.balance &&
      0 < lossLimitRemaining }

/-- `polyClient.getBalance()`: never raises — `none` models a failed
exchange query, which the `catch` turns into `{balance: 0, allowance: 0}`. -/
def getBalance (response : Option Balance) : Balance :=
  match response with
  | some b => b
  | none => { balance := 0, allowance := 0 }

/-- `checkRiskConditions()` (the standing per-cycle evaluation); the
returned `Bool` says whether the kill switch was auto-triggered. -/
def checkRiskConditions (st : DbState) (balResponse : Option Balance) :
    DbState × Bool :=
  let status := getRiskStatus st (getBalance balResponse)
  if status.kill_switch then
    (st, false)
  else if status.loss_limit_remaining ≤ 0 then
    (activateKillSwitch st "Daily loss limit exceeded", true)
  else if status.balance < status.position_size * (1/2 : ℚ) then
    (activateKillSwitch st "Low balance warning", true)
  else
    (st, false)

/-! ## Order Executor (`order-executor.js`) -/

/-- The object `polyClient.placeOrder` resolves to; the code reads the
id as `resp.orderID || resp.order_id`. -/
structure OrderResp where
  orderID : Option String
  order_id : Option String
  deriving Repr, DecidableEq

/-- JS string-field truthiness: `undefined`/`null` and `""` are falsy. -/
def truthyStr (v : Option String) : Option String :=
  match v with
  | some s => if s == "" then none else some s
  | none => none

/-- `resp.orderID || resp.order_id`, collapsed through truthiness (a
falsy `||`-chain result is only ever used where falsiness means
"no id"). -/
def respOid (r : OrderResp) : Option String :=
  match truthyStr r.orderID with
  | some s => some s
  | none => truthyStr r.order_id

/-- Exchange responses for one `executeTrade` call: each leg's
`placeOrder` either resolves (`ok`) or rejects with an error message. -/
structure ExecEnv where
  yesRes : Except String OrderResp
  noRes : Except String OrderResp
  deriving Repr

/-- The value `executeTrade` returns, plus the order-cancellation
requests (`polyClient.cancelOrder(id)`) the call issued during
rollback, in order. -/
structure ExecResult where
  success : Bool
  error : Option String
  trade : Trade
  cancels : List String
  deriving Repr, DecidableEq

/-- `rollbackTrade(trade, yesOrder, noOrder)`: the cancel requests it
issues — one per placed leg with a truthy id, YES first.  Each cancel
is wrapped in its own `try`, so failures don't raise and have no
database effect. -/
def rollbackCancels (yesOrder noOrder : Option OrderResp) : List String :=
  (match yesOrder with
   | some r => (respOid r).toList
   | none => []) ++
  (match noOrder with
   | some r => (respOid r).toList
   | none => [])

/-- The `db.trades.create({...})` row `executeTrade` persists before any
network call: `'pending'`, no leg ids, `total_cost` recomputed from the
opportunity's prices, `position_size` read from the settings. -/
def newTradeRow (st : DbState) (opp : Opportunity) : Trade where
  id := st.nextTradeId
  market_id := opp.market_id
  market_question := opp.market_question
  yes_token_id := opp.yes_token_id
  no_token_id := opp.no_token_id
  yes_order_id := none
  no_order_id := none
  yes_price := opp.yes_price
  no_price := opp.no_price
  total_cost := opp.yes_price + opp.no_price
  position_size := st.settings.position_size
  expected_profit := opp.expected_profit
  status := "pending"
  settlement_result := none
  actual_profit := none

/-- `executeTrade(opportunity)`: create the Trade row in status
`'pending'` before any network call, place the YES then the NO leg,
persist ids as they arrive, and on any leg error roll back, mark the
row `'failed'` and return `success: false` (the returned `trade` in the
failure branch is the stale creation-time object, not the re-read row —
exactly as in the source). -/
def executeTrade (st : DbState) (opp : Opportunity) (env : ExecEnv) :
    DbState × ExecResult :=
  let trade := newTradeRow st opp
  let st1 : DbState :=
    { st with trades := st.trades ++ [trade], nextTradeId := st.nextTradeId + 1 }
  match env.yesRes with
  | .error e =>
    -- YES placement threw: rollback sees no placed orders
    let st2 :=
      { st1 with
        trades := tradesUpdate st1.trades trade.id (fun t => { t with status := "failed" })
        alerts := st1.alerts ++
          [{ kind := "error", severity := "error", message := "Trade failed: " ++ e }] }
    (st2, { success := false, error := some e, trade := trade,
            cancels := rollbackCancels none none })
  | .ok yesOrder =>
    let st2 :=
      { st1 with
        trades := tradesUpdate st1.trades trade.id
          (fun t => { t with yes_order_id := respOid yesOrder }) }
    match env.noRes with
    | .error e =>
      let st3 :=
        { st2 with
          trades := tradesUpdate st2.trades trade.id (fun t => { t with status := "failed" })
          alerts := st2.alerts ++
            [{ kind := "error", severity := "error", message := "Trade failed: " ++ e }] }
      (st3, { success := false, error := some e, trade := trade,
              cancels := rollbackCancels (some yesOrder) none })
    | .ok noOrder =>
      let updatedTrade : Trade :=
        { trade with
          yes_order_id := respOid yesOrder
          no_order_id := respOid noOrder
          status := "placed" }
      let st3 :=
        { st2 with
          trades := tradesUpdate st2.trades trade.id
            (fun t => { t with no_order_id := respOid noOrder, status := "placed" })
          alerts := st2.alerts ++
            [{ kind := "trade", severity := "info",
               message := "Trade placed: " ++ opp.market_question }] }
      (st3, { success := true, error := none, trade := updatedTrade, cancels := [] })

/-- The value `cancelTrade` returns plus the cancel requests issued. -/
structure CancelResult where
  success : Bool
  error : Option String
  trade : Option Trade
  cancelledYes : Bool
  cancelledNo : Bool
  cancels : List String
  deriving Repr, DecidableEq

/-- Exchange responses for a `cancelTrade` call: `cancelOrder` never
throws, it resolves `true`/`false`. -/
structure CancelEnv where
  yesCancelOk : Bool
  noCancelOk : Bool
  deriving Repr, DecidableEq

/-- `cancelTrade(tradeId)`: NotFound error if the id is unknown,
otherwise cancel each leg that has an order id and set the row's status
to `'cancelled'` regardless of the per-leg results. -/
def cancelTrade (st : DbState) (tradeId : ℕ) (env : CancelEnv) :
    DbState × CancelResult :=
  match tradesGetById st.trades tradeId with
  | none =>
    (st, { success := false, error := some "Trade not found", trade := none,
           cancelledYes := false, cancelledNo := false, cancels := [] })
  | some trade =>
    let yesCancels := (truthyStr trade.yes_order_id).toList
    let cancelledYes := if (truthyStr trade.yes_order_id).isSome then env.yesCancelOk else false
    let noCancels := (truthyStr trade.no_order_id).toList
    let cancelledNo := if (truthyStr trade.no_order_id).isSome then env.noCancelOk else false
    let trades' := tradesUpdate st.trades tradeId (fun t => { t with status := "cancelled" })
    let updatedTrade := tradesGetById trades' tradeId
    let st' :=
      { st with
        trades := trades'
        alerts := st.alerts ++
          [{ kind := "trade", severity := "warning",
             message := "Trade cancelled: " ++ trade.market_question }] }
    (st', { success := true, error := none, trade := updatedTrade,
            cancelledYes := cancelledYes, cancelledNo := cancelledNo,
            cancels := yesCancels ++ noCancels })

/-- What `polyClient.getOrder` resolves to when the order is found. -/
structure OrderInfo where
  status : String
  deriving Repr, DecidableEq

/-- The exchange's answer to `getOrder` per order id (`none` models
both "call failed" and "order unknown": the wrapper returns `null` on
error). -/
def legStatus (orderId : Option String) (fetch : String → Option OrderInfo) :
    Option String :=
  match truthyStr orderId with
  | some i => (fetch i).map (fun o => o.status)
  | none => none

/-- `checkOrderStatus(trade)`: reconcile the row's status from the two
legs' exchange statuses; persist only on change. -/
def checkOrderStatus (st : DbState) (trade : Trade)
    (fetch : String → Option OrderInfo) :
    DbState × (Option String × Option String × String) :=
  let yesStatus := legStatus trade.yes_order_id fetch
  let noStatus := legStatus trade.no_order_id fetch
  let newStatus :=
    if yesStatus == some "MATCHED" && noStatus == some "MATCHED" then "filled"
    else if yesStatus == some "MATCHED" || noStatus == some "MATCHED" then "partial"
    else if yesStatus == some "CANCELLED" || noStatus == some "CANCELLED" then "cancelled"
    else trade.status
  if newStatus ≠ trade.status then
    let trades' := tradesUpdate st.trades trade.id (fun t => { t with status := newStatus })
    ({ st with trades := trades' }, (yesStatus, noStatus, newStatus))
  else
    (st, (yesStatus, noStatus, newStatus))

/-- `processSettlement(trade, result)`: compute the profit from the
row's own recorded `total_cost`, mark the row `'settled'`, and bump
today's P&L aggregate (the `settled_at` timestamp is not modelled). -/
def processSettlement (st : DbState) (trade : Trade) (result : String) :
    DbState × Option Trade :=
  let shares := trade.position_size / trade.total_cost
  let actualProfit := shares * (1 - trade.total_cost)
  let trades' := tradesUpdate st.trades trade.id (fun t =>
    { t with
      status := "settled"
      settlement_result := some result
      actual_profit := some actualProfit })
  let st' :=
    { st with
      trades := trades'
      pnlToday := pnlIncrementTrades st.pnlToday actualProfit
      alerts := st.alerts ++
        [{ kind := "settlement", severity := "info",
           message := "Trade settled: " ++ result }] }
  (st', tradesGetById trades' trade.id)

/-! ## Entry points

The three places that can start an execution: the scanning loop
(`runScanningLoop` in the main entry file), the REST approve/reject
routes (`api/routes.js`), and the websocket approve/reject handlers
(`websocket.js`). -/

/-- External responses consumed during one approve request: the balance
fetch inside `canTrade` and the two leg placements. -/
structure ApproveEnv where
  bal : Balance
  exec : ExecEnv
  deriving Repr

/-- The HTTP/socket-visible outcome of an approve request. -/
structure ApproveOut where
  ok : Bool
  error : Option String
  result : Option ExecResult
  deriving Repr

/-- `POST /opportunities/:id/approve` (`api/routes.js`): 404 on unknown
id, 400 when the row is not `'pending'`, 400 with the risk reason on
denial, otherwise execute and mark the row `'approved'` or `'failed'`
by the execution outcome. -/
def approveRest (st : DbState) (id : ℕ) (env : ApproveEnv) :
    DbState × ApproveOut :=
  match pendingGetById st.pending id with
  | none => (st, { ok := false, error := some "Opportunity not found", result := none })
  | some opp =>
    if opp.status ≠ "pending" then
      (st, { ok := false, error := some "Opportunity is not pending", result := none })
    else
      let rc := canTrade st opp.toOpportunity env.bal
      if !rc.2.allowed then
        (rc.1, { ok := false, error := rc.2.reason, result := none })
      else
        let ex := executeTrade rc.1 opp.toOpportunity env.exec
        let st' :=
          { ex.1 with
            pending := pendingUpdateStatus ex.1.pending opp.id
              (if ex.2.success then "approved" else "failed") }
        (st', { ok := true, error := none, result := some ex.2 })

/-- The `opportunity:approve` websocket handler (`websocket.js`): one
combined guard `!opportunity || opportunity.status !== 'pending'`, then
the same gate-execute-mark sequence as the REST route. -/
def approveWs (st : DbState) (id : ℕ) (env : ApproveEnv) :
    DbState × ApproveOut :=
  match pendingGetById st.pending id with
  | none =>
    (st, { ok := false, error := some "Opportunity not found or not pending", result := none })
  | some opp =>
    if opp.status ≠ "pending" then
      (st, { ok := false, error := some "Opportunity not found or not pending", result := none })
    else
      let rc := canTrade st opp.toOpportunity env.bal
      if !rc.2.allowed then
        (rc.1, { ok := false, error := rc.2.reason, result := none })
      else
        let ex := executeTrade rc.1 opp.toOpportunity env.exec
        let st' :=
          { ex.1 with
            pending := pendingUpdateStatus ex.1.pending opp.id
              (if ex.2.success then "approved" else "failed") }
        (st', { ok := true, error := none, result := some ex.2 })

/-- `POST /opportunities/:id/reject` (`api/routes.js`): 404 on unknown
id, otherwise set the row's status to `'rejected'` — with no check of
its current status. -/
def rejectRest (st : DbState) (id : ℕ) : DbState × Bool :=
  match pendingGetById st.pending id with
  | none => (st, false)
  | some opp =>
    ({ st with pending := pendingUpdateStatus st.pending opp.id "rejected" }, true)

/-- The `opportunity:reject` websocket handler (`websocket.js`):
`db.pending.updateStatus(data.id, 'rejected')` with no lookup and no
status check at all. -/
def rejectWs (st : DbState) (id : ℕ) : DbState :=
  { st with pending := pendingUpdateStatus st.pending id "rejected" }

/-- External responses consumed while the scanning loop processes one
detected opportunity. -/
structure ScanEnv where
  bal : Balance
  exec : ExecEnv
  deriving Repr

/-- The body of the per-opportunity loop in `runScanningLoop` (step 5
of a scan cycle): de-duplicate against queued `'pending'` rows for the
same market, run the risk gate, then — re-reading the settings — either
execute immediately (auto mode) or queue the opportunity for human
approval with a notification and an info alert. -/
def processOpportunity (st : DbState) (opp : DetectedOpp) (env : ScanEnv) :
    DbState :=
  let existing := (pendingGetPending st.pending).find?
    (fun p => p.market_id == opp.market_id)
  if existing.isSome then
    st
  else
    let rc := canTrade st opp.toOpportunity env.bal
    if !rc.2.allowed then
      rc.1
    else
      let currentSettings := rc.1.settings
      if currentSettings.auto_mode then
        (executeTrade rc.1 opp.toOpportunity env.exec).1
      else
        let row := pendingCreateRow opp.toOpportunity rc.1.nextPendingId
        { rc.1 with
          pending := rc.1.pending ++ [row]
          nextPendingId := rc.1.nextPendingId + 1
          alerts := rc.1.alerts ++
            [{ kind := "opportunity", severity := "info",
               message := "New opportunity: " ++ opp.market_question }] }

/-! ## Claims -/

/-- Helper: on books with a nonzero best ask on each side, the detector
reduces to the threshold test. -/
lemma analyzeMarket_none_iff_cons (settings : Settings) (m : Market)
    (ybids nbids : List Level) (y n : Level) (ys ns : List Level)
    (hy : y.price ≠ 0) (hn : n.price ≠ 0) :
    (analyzeMarket settings m ⟨ybids, y :: ys⟩ ⟨nbids, n :: ns⟩ = none ↔
      1 - (y.price + n.price) < settings.profit_threshold) := by
  simp only [analyzeMarket, getBestPrice, bestPriceFalsy, List.head?_cons,
    Option.map_some']
  rw [if_neg (by simp [hy, hn])]
  split_ifs with h <;> simp [h]

/-- Claim C8: every opportunity the detector returns satisfies exactly
`total_cost = yes_price + no_price`, `spread = 1 − total_cost`, and
`expected_profit = (position_size / total_cost) × spread` with the
settings' position size at detection time. -/
theorem claim_C8_detector_fields_exact (settings : Settings) (m : Market)
    (yb nb : OrderBook) (o : DetectedOpp)
    (h : analyzeMarket settings m yb nb = some o) :
    o.total_cost = o.yes_price + o.no_price ∧
    o.spread = 1 - o.total_cost ∧
    o.expected_profit = settings.position_size / o.total_cost * o.spread := by
  simp only [analyzeMarket] at h
  split at h
  · exact absurd h (by simp)
  · split at h
    · split at h
      · exact absurd h (by simp)
      · cases Option.some.inj h
        exact ⟨rfl, rfl, rfl⟩
    · exact absurd h (by simp)

/-- Witness for C8 at scenario A of the spec: prices 0.45/0.52,
position size 10. -/
theorem claim_C8_detector_fields_exact_witness :
    ∃ o, analyzeMarket
      { position_size := 10, profit_threshold := 1/100, auto_mode := false,
        kill_switch := false, daily_loss_limit := 50, max_open_positions := 10,
        active_currencies := [], scan_interval_ms := 30000 }
      { conditionId := "m1", question := "q", yesTokenId := "y",
        noTokenId := "n", endDate := none }
      { bids := [], asks := [{ price := 45/100, size := 100 }] }
      { bids := [], asks := [{ price := 52/100, size := 100 }] } = some o ∧
    o.total_cost = o.yes_price + o.no_price ∧
    o.spread = 1 - o.total_cost ∧
    o.expected_profit = (10 : ℚ) / o.total_cost * o.spread := by
  have h : (analyzeMarket
      { position_size := 10, profit_threshold := 1/100, auto_mode := false,
        kill_switch := false, daily_loss_limit := 50, max_open_positions := 10,
        active_currencies := [], scan_interval_ms := 30000 }
      { conditionId := "m1", question := "q", yesTokenId := "y",
        noTokenId := "n", endDate := none }
      { bids := [], asks := [{ price := 45/100, size := 100 }] }
      { bids := [], asks := [{ price := 52/100, size := 100 }] }).isSome = true := by
    norm_num [analyzeMarket, getBestPrice, bestPriceFalsy]
  obtain ⟨o, ho⟩ := Option.isSome_iff_exists.mp h
  exact ⟨o, ho, claim_C8_detector_fields_exact _ _ _ _ _ ho⟩

/-- Claim C6: with order books whose ask prices are positive (the data
model's `price ∈ (0,1)`), the detector returns none exactly when an ask
list is empty or the spread is strictly below the profit threshold; a
spread exactly at the threshold is accepted. -/
theorem claim_C6_detector_none_iff (settings : Settings) (m : Market)
    (yb nb : OrderBook)
    (hy : ∀ l ∈ yb.asks, 0 < l.price) (hn : ∀ l ∈ nb.asks, 0 < l.price) :
    (analyzeMarket settings m yb nb = none ↔
      yb.asks = [] ∨ nb.asks = [] ∨
      ∃ y n, yb.asks.head? = some y ∧ nb.asks.head? = some n ∧
        1 - (y.price + n.price) < settings.profit_threshold) ∧
    (∀ y n, yb.asks.head? = some y → nb.asks.head? = some n →
      1 - (y.price + n.price) = settings.profit_threshold →
      (analyzeMarket settings m yb nb).isSome = true) := by
  rcases yb with ⟨ybids, yasks⟩
  rcases nb with ⟨nbids, nasks⟩
  cases yasks with
  | nil => simp [analyzeMarket, getBestPrice, bestPriceFalsy]
  | cons y ys =>
    cases nasks with
    | nil => simp [analyzeMarket, getBestPrice, bestPriceFalsy]
    | cons n ns =>
      have hy0 : y.price ≠ 0 := (hy y (by simp)).ne'
      have hn0 : n.price ≠ 0 := (hn n (by simp)).ne'
      have key := analyzeMarket_none_iff_cons settings m ybids nbids y n ys ns hy0 hn0
      constructor
      · rw [key]
        constructor
        · intro hlt
          exact Or.inr (Or.inr ⟨y, n, rfl, rfl, hlt⟩)
        · rintro (h | h | ⟨y', n', hy', hn', hlt⟩)
          · cases h
          · cases h
          · cases Option.some.inj hy'
            cases Option.some.inj hn'
            exact hlt
      · intro y' n' hy' hn' heq
        cases Option.some.inj hy'
        cases Option.some.inj hn'
        rw [← Option.ne_none_iff_isSome]
        intro hnone
        exact absurd heq (ne_of_lt (key.mp hnone))

/-- Witness for C6: a one-level book on each side whose spread equals
the threshold exactly is accepted (scenario A prices with threshold
0.03). -/
theorem claim_C6_detector_none_iff_witness :
    (analyzeMarket
      { position_size := 10, profit_threshold := 3/100, auto_mode := false,
        kill_switch := false, daily_loss_limit := 50, max_open_positions := 10,
        active_currencies := [], scan_interval_ms := 30000 }
      { conditionId := "m1", question := "q", yesTokenId := "y",
        noTokenId := "n", endDate := none }
      { bids := [], asks := [{ price := 45/100, size := 100 }] }
      { bids := [], asks := [{ price := 52/100, size := 100 }] }).isSome = true := by
  exact (claim_C6_detector_none_iff _ _ _ _
    (by intro l hl; simp at hl; rw [hl]; norm_num)
    (by intro l hl; simp at hl; rw [hl]; norm_num)).2
    { price := 45/100, size := 100 } { price := 52/100, size := 100 }
    rfl rfl (by norm_num)

/-! ### Concrete fixtures shared by the witnesses -/

/-- A baseline settings row (kill switch off, manual mode). -/
def wSettings : Settings where
  position_size := 10
  profit_threshold := 1/100
  auto_mode := false
  kill_switch := false
  daily_loss_limit := 50
  max_open_positions := 10
  active_currencies := []
  scan_interval_ms := 30000

/-- A concrete in-memory opportunity (integer prices keep kernel
evaluation cheap; the semantics does not restrict them). -/
def wOpp : Opportunity where
  market_id := "m1"
  market_question := "q"
  yes_token_id := "yt"
  no_token_id := "nt"
  yes_price := 1
  no_price := 2
  spread := 1
  expected_profit := 3
  yes_liquidity := some 45
  no_liquidity := some 52
  expires_at := none

/-- A healthy balance. -/
def wBal : Balance where
  balance := 100
  allowance := 100

/-- An empty baseline database. -/
def wState : DbState where
  settings := wSettings
  trades := []
  nextTradeId := 1
  pending := []
  nextPendingId := 1
  pnlToday := none
  alerts := []

/-- Case-insensitive view of a string: the spec quotes the denial
reasons in running-text lowercase while the source capitalizes the
first word, so reason phrases are compared up to capitalization. -/
def lowercase (s : String) : String :=
  String.mk (s.data.map Char.toLower)

/-- Claim C7: a `canTrade` call made while the kill switch is off and
today's realized P&L is strictly below `-daily_loss_limit`
auto-activates the kill switch and denies with the loss-limit reason
(compared case-insensitively: the source capitalizes the first word). -/
theorem claim_C7_loss_limit_autokill (st : DbState) (opp : Opportunity)
    (bal : Balance) (p : DailyPnl)
    (hks : st.settings.kill_switch = false)
    (hp : st.pnlToday = some p)
    (hloss : p.realized_pnl < -st.settings.daily_loss_limit) :
    (canTrade st opp bal).2.allowed = false ∧
    ((canTrade st opp bal).2.reason.map lowercase) =
      some "daily loss limit exceeded" ∧
    (canTrade st opp bal).1.settings.kill_switch = true := by
  have hlow : lowercase "Daily loss limit exceeded" = "daily loss limit exceeded" := by
    decide
  simp [canTrade, hks, hp, hloss, activateKillSwitch, hlow]

/-- Witness for C7 at scenario C of the spec: `daily_loss_limit = 50`,
today's realized P&L `= -55`. -/
theorem claim_C7_loss_limit_autokill_witness :
    (canTrade { wState with pnlToday := some { total_trades := 1, winning_trades := 0, realized_pnl := -55 } } wOpp wBal).2.allowed = false ∧
    ((canTrade { wState with pnlToday := some { total_trades := 1, winning_trades := 0, realized_pnl := -55 } } wOpp wBal).2.reason.map lowercase) =
      some "daily loss limit exceeded" ∧
    (canTrade { wState with pnlToday := some { total_trades := 1, winning_trades := 0, realized_pnl := -55 } } wOpp wBal).1.settings.kill_switch = true :=
  claim_C7_loss_limit_autokill _ _ _ _ rfl rfl (by norm_num [wState, wSettings])

/-- Claim C9: activating the kill switch removes exactly the
`'pending'` approval rows: afterwards no row is `'pending'`, every
surviving row was already present unchanged, and every
`'approved'`/`'rejected'`/`'expired'` row survives unchanged. -/
theorem claim_C9_kill_switch_frame (st : DbState) (reason : String) :
    (∀ r ∈ (activateKillSwitch st reason).pending, r.status ≠ "pending") ∧
    (∀ r ∈ (activateKillSwitch st reason).pending, r ∈ st.pending) ∧
    (∀ r ∈ st.pending,
      r.status = "approved" ∨ r.status = "rejected" ∨ r.status = "expired" →
      r ∈ (activateKillSwitch st reason).pending) := by
  refine ⟨?_, ?_, ?_⟩
  · intro r hr
    have := (List.mem_filter.mp hr).2
    simpa using this
  · intro r hr
    exact (List.mem_filter.mp hr).1
  · intro r hr hs
    refine List.mem_filter.mpr ⟨hr, ?_⟩
    rcases hs with h | h | h <;> simp [h]

/-- Witness for C9 on a two-row table: the `'approved'` row survives
kill-switch activation byte-for-byte. -/
theorem claim_C9_kill_switch_frame_witness :
    ({ id := 2, market_id := "m2", market_question := "q2",
       yes_token_id := "y2", no_token_id := "n2", yes_price := 1,
       no_price := 1, spread := 1, expected_profit := 1, expires_at := none,
       status := "approved" } : PendingOpp) ∈
      (activateKillSwitch
        { wState with pending :=
          [{ id := 1, market_id := "m1", market_question := "q1",
             yes_token_id := "y1", no_token_id := "n1", yes_price := 1,
             no_price := 1, spread := 1, expected_profit := 1, expires_at := none,
             status := "pending" },
           { id := 2, market_id := "m2", market_question := "q2",
             yes_token_id := "y2", no_token_id := "n2", yes_price := 1,
             no_price := 1, spread := 1, expected_profit := 1, expires_at := none,
             status := "approved" }] } "Manual activation").pending :=
  (claim_C9_kill_switch_frame _ "Manual activation").2.2 _ (by simp)
    (Or.inl rfl)

/-- Claim C10: `getBalance` never raises — a failed exchange query
yields `{balance: 0, allowance: 0}` — and consequently one failed
balance fetch during the standing risk evaluation, with the kill switch
off, positive loss-limit headroom and a positive position size,
auto-activates the kill switch with the reason "Low balance warning". -/
theorem claim_C10_balance_failure_halts (st : DbState)
    (hks : st.settings.kill_switch = false)
    (hheadroom : 0 < st.settings.daily_loss_limit + dailyPnlOf st.pnlToday)
    (hpos : 0 < st.settings.position_size) :
    getBalance none = { balance := 0, allowance := 0 } ∧
    (checkRiskConditions st none).2 = true ∧
    (checkRiskConditions st none).1 = activateKillSwitch st "Low balance warning" := by
  have h1 : ¬ (st.settings.daily_loss_limit + dailyPnlOf st.pnlToday ≤ 0) :=
    not_le.mpr hheadroom
  refine ⟨rfl, ?_, ?_⟩ <;>
    simp [checkRiskConditions, getRiskStatus, getBalance, hks, h1, hpos]

/-- Witness for C10: empty database, default-like settings, failed
balance fetch. -/
theorem claim_C10_balance_failure_halts_witness :
    getBalance none = { balance := 0, allowance := 0 } ∧
    (checkRiskConditions wState none).2 = true ∧
    (checkRiskConditions wState none).1 =
      activateKillSwitch wState "Low balance warning" :=
  claim_C10_balance_failure_halts wState rfl
    (by norm_num [wState, wSettings, dailyPnlOf])
    (by norm_num [wState, wSettings])

/-! ### List-update helper lemmas -/

/-- Updating the id of a freshly appended row touches only that row. -/
lemma tradesUpdate_append (l : List Trade) (t : Trade) (tid : ℕ)
    (f : Trade → Trade) (ht : t.id = tid) (h : ∀ u ∈ l, u.id ≠ tid) :
    tradesUpdate (l ++ [t]) tid f = l ++ [f t] := by
  unfold tradesUpdate
  rw [List.map_append]
  have h1 : l.map (fun u => if u.id == tid then f u else u) = l := by
    conv_rhs => rw [← List.map_id l]
    apply List.map_congr_left
    intro u hu
    simp [h u hu]
  rw [h1]
  simp [ht]

/-- `getById` after a field update of the row with that id. -/
lemma tradesGetById_update (l : List Trade) (tid : ℕ) (f : Trade → Trade)
    (hf : ∀ t, (f t).id = t.id) :
    tradesGetById (tradesUpdate l tid f) tid = (tradesGetById l tid).map f := by
  unfold tradesGetById tradesUpdate
  rw [List.find?_map]
  have hpred : ((fun t : Trade => t.id == tid) ∘
      (fun t => if t.id == tid then f t else t)) = (fun t : Trade => t.id == tid) := by
    funext t
    by_cases h : t.id = tid
    · simp [Function.comp, h, hf]
    · simp [Function.comp, h]
  rw [hpred]
  cases hfind : l.find? (fun t => t.id == tid) with
  | none => simp
  | some u =>
    have hu : u.id = tid := by simpa using List.find?_some hfind
    simp [hu]

/-- `getById` after a status update of the pending row with that id. -/
lemma pendingGetById_updateStatus (l : List PendingOpp) (pid : ℕ) (s : String) :
    pendingGetById (pendingUpdateStatus l pid s) pid
      = (pendingGetById l pid).map (fun p => { p with status := s }) := by
  unfold pendingGetById pendingUpdateStatus
  rw [List.find?_map]
  have hpred : ((fun p : PendingOpp => p.id == pid) ∘
      (fun p => if p.id == pid then { p with status := s } else p))
      = (fun p : PendingOpp => p.id == pid) := by
    funext p
    by_cases h : p.id = pid
    · simp [Function.comp, h]
    · simp [Function.comp, h]
  rw [hpred]
  cases hfind : l.find? (fun p => p.id == pid) with
  | none => simp
  | some u =>
    have hu : u.id = pid := by simpa using List.find?_some hfind
    simp [hu]

/-- Two successive updates of a freshly appended row. -/
lemma tradesUpdate_update_append (l : List Trade) (t : Trade) (tid : ℕ)
    (f g : Trade → Trade) (ht : t.id = tid) (hf : ∀ u, (f u).id = u.id)
    (h : ∀ u ∈ l, u.id ≠ tid) :
    tradesUpdate (tradesUpdate (l ++ [t]) tid f) tid g = l ++ [g (f t)] := by
  rw [tradesUpdate_append l t tid f ht h,
      tradesUpdate_append l (f t) tid g (by rw [hf, ht]) h]

/-! ### Claims about the executor -/

/-- Claim C4: `executeTrade` never leaves its Trade row in `'pending'` —
it appends exactly one row, `'placed'` with `success = true` when both
legs placed, `'failed'` with `success = false` when either leg raised.
(The freshness hypothesis is the AUTOINCREMENT key invariant.) -/
theorem claim_C4_executor_never_pending (st : DbState) (opp : Opportunity)
    (env : ExecEnv)
    (hfresh : ∀ t ∈ st.trades, t.id ≠ st.nextTradeId) :
    ∃ tr, (executeTrade st opp env).1.trades = st.trades ++ [tr] ∧
      tr.status ≠ "pending" ∧
      (env.yesRes.isOk = true ∧ env.noRes.isOk = true →
        tr.status = "placed" ∧ (executeTrade st opp env).2.success = true) ∧
      (¬(env.yesRes.isOk = true ∧ env.noRes.isOk = true) →
        tr.status = "failed" ∧ (executeTrade st opp env).2.success = false) := by
  obtain ⟨yesRes, noRes⟩ := env
  cases yesRes with
  | error e =>
    refine ⟨{ newTradeRow st opp with status := "failed" }, ?_, by simp, ?_, ?_⟩
    · show tradesUpdate (st.trades ++ [newTradeRow st opp]) st.nextTradeId _ = _
      exact tradesUpdate_append st.trades (newTradeRow st opp) st.nextTradeId _
        rfl hfresh
    · rintro ⟨h1, -⟩
      exact absurd h1 (by simp [Except.isOk, Except.toBool])
    · intro _
      exact ⟨rfl, rfl⟩
  | ok y =>
    cases noRes with
    | error e =>
      refine ⟨{ newTradeRow st opp with
                yes_order_id := respOid y, status := "failed" }, ?_, by simp, ?_, ?_⟩
      · show tradesUpdate (tradesUpdate (st.trades ++ [newTradeRow st opp])
          st.nextTradeId _) st.nextTradeId _ = _
        exact tradesUpdate_update_append st.trades (newTradeRow st opp)
          st.nextTradeId _ _ rfl (fun u => rfl) hfresh
      · rintro ⟨-, h2⟩
        exact absurd h2 (by simp [Except.isOk, Except.toBool])
      · intro _
        exact ⟨rfl, rfl⟩
    | ok n =>
      refine ⟨{ newTradeRow st opp with
                yes_order_id := respOid y, no_order_id := respOid n,
                status := "placed" }, ?_, by simp, ?_, ?_⟩
      · show tradesUpdate (tradesUpdate (st.trades ++ [newTradeRow st opp])
          st.nextTradeId _) st.nextTradeId _ = _
        exact tradesUpdate_update_append st.trades (newTradeRow st opp)
          st.nextTradeId _ _ rfl (fun u => rfl) hfresh
      · intro _
        exact ⟨rfl, rfl⟩
      · intro h
        exact absurd ⟨rfl, rfl⟩ h

/-- Exchange responses where both legs place successfully. -/
def wEnvOk : ExecEnv where
  yesRes := Except.ok { orderID := some "oy", order_id := none }
  noRes := Except.ok { orderID := some "on", order_id := none }

/-- Exchange responses where the YES leg places and the NO leg is
rejected. -/
def wEnvNoFail : ExecEnv where
  yesRes := Except.ok { orderID := some "oy", order_id := none }
  noRes := Except.error "order rejected"

/-- Witness for C4: a successful two-leg execution on the empty
database yields exactly one `'placed'` row. -/
theorem claim_C4_executor_never_pending_witness :
    ∃ tr, (executeTrade wState wOpp wEnvOk).1.trades = wState.trades ++ [tr] ∧
      tr.status ≠ "pending" :=
  match claim_C4_executor_never_pending wState wOpp wEnvOk (by simp [wState]) with
  | ⟨tr, h1, h2, _, _⟩ => ⟨tr, h1, h2⟩

/-- Claim C5: when the YES leg placed (returning an order id) and the
NO leg then failed, the Trade row ends `'failed'` and exactly one
cancellation was attempted, for the YES leg's order id. -/
theorem claim_C5_rollback_cancels_yes (st : DbState) (opp : Opportunity)
    (env : ExecEnv) (y : OrderResp) (oid : String) (e : String)
    (hfresh : ∀ t ∈ st.trades, t.id ≠ st.nextTradeId)
    (hy : env.yesRes = Except.ok y) (hid : respOid y = some oid)
    (hn : env.noRes = Except.error e) :
    ∃ tr, (executeTrade st opp env).1.trades = st.trades ++ [tr] ∧
      tr.status = "failed" ∧
      (executeTrade st opp env).2.cancels = [oid] := by
  obtain ⟨yesRes, noRes⟩ := env
  cases hy
  cases hn
  refine ⟨{ newTradeRow st opp with
            yes_order_id := respOid y, status := "failed" }, ?_, rfl, ?_⟩
  · show tradesUpdate (tradesUpdate (st.trades ++ [newTradeRow st opp])
      st.nextTradeId _) st.nextTradeId _ = _
    exact tradesUpdate_update_append st.trades (newTradeRow st opp)
      st.nextTradeId _ _ rfl (fun u => rfl) hfresh
  · show rollbackCancels (some y) none = [oid]
    simp [rollbackCancels, hid]

/-- Witness for C5: YES leg placed with id `"oy"`, NO leg rejected —
one cancel request, for `"oy"`. -/
theorem claim_C5_rollback_cancels_yes_witness :
    ∃ tr, (executeTrade wState wOpp wEnvNoFail).1.trades = wState.trades ++ [tr] ∧
      tr.status = "failed" ∧
      (executeTrade wState wOpp wEnvNoFail).2.cancels = ["oy"] :=
  claim_C5_rollback_cancels_yes wState wOpp wEnvNoFail
    { orderID := some "oy", order_id := none } "oy" "order rejected"
    (by simp [wState]) rfl (by decide) rfl

/-! ### State lemmas for the no-bypass invariant -/

/-- `canTrade` never touches the trades table. -/
lemma canTrade_state_trades (st : DbState) (o : Opportunity) (b : Balance) :
    (canTrade st o b).1.trades = st.trades := by
  simp only [canTrade]
  repeat' split
  all_goals rfl

/-- When `canTrade` allows, it leaves the state untouched. -/
lemma canTrade_allowed_state (st : DbState) (o : Opportunity) (b : Balance) :
    (canTrade st o b).2.allowed = true → (canTrade st o b).1 = st := by
  simp only [canTrade]
  repeat' split
  all_goals intro h
  all_goals first
    | rfl
    | exact absurd h (by simp)

/-- `canTrade` either leaves the approvals table alone or (loss-limit
auto-kill) clears the `'pending'` rows. -/
lemma canTrade_state_pending (st : DbState) (o : Opportunity) (b : Balance) :
    (canTrade st o b).1.pending = st.pending ∨
    (canTrade st o b).1.pending = pendingDeleteAll st.pending := by
  simp only [canTrade]
  repeat' split
  all_goals first
    | exact Or.inl rfl
    | exact Or.inr rfl

/-- `executeTrade` never touches the approvals table. -/
lemma executeTrade_state_pending (st : DbState) (o : Opportunity) (e : ExecEnv) :
    (executeTrade st o e).1.pending = st.pending := by
  simp only [executeTrade]
  repeat' split
  all_goals rfl

/-- With unique row ids, the row found by id before the kill-switch
sweep was `'pending'`, so no row with that id survives the sweep. -/
lemma pendingGetById_deleteAll_of_pending (l : List PendingOpp) (pid : ℕ)
    (opp : PendingOpp) (huniq : l.Pairwise (fun a b => a.id ≠ b.id))
    (h : pendingGetById l pid = some opp) (hs : opp.status = "pending") :
    pendingGetById (pendingDeleteAll l) pid = none := by
  induction l with
  | nil => cases h
  | cons p l ih =>
    rw [List.pairwise_cons] at huniq
    unfold pendingGetById pendingDeleteAll at *
    by_cases hp : p.id = pid
    · rw [List.find?_cons_of_pos _ (by simpa using hp)] at h
      cases Option.some.inj h
      apply List.find?_eq_none.mpr
      intro r hr
      obtain ⟨hrl, hrs⟩ := List.mem_filter.mp hr
      cases List.mem_cons.mp hrl with
      | inl hre =>
        subst hre
        simp [hs] at hrs
      | inr hrl' =>
        have hne := huniq.1 r hrl'
        rw [hp] at hne
        simpa using Ne.symm hne
    · rw [List.find?_cons_of_neg _ (by simpa using hp)] at h
      have htail := ih huniq.2 h
      rw [List.filter_cons]
      split
      · rw [List.find?_cons_of_neg _ (by simpa using hp)]
        exact htail
      · exact htail

/-- The websocket approve handler drives the database through exactly
the same states as the REST route (they differ only in the error
payloads they emit). -/
lemma approveWs_state_eq (st : DbState) (id : ℕ) (env : ApproveEnv) :
    (approveWs st id env).1 = (approveRest st id env).1 := by
  cases hfind : pendingGetById st.pending id with
  | none => simp [approveWs, approveRest, hfind]
  | some opp =>
    simp only [approveWs, approveRest, hfind]
    split_ifs <;> rfl

/-- In the allowed branch, the approve route updates the found row's
status by the execution outcome (and changes nothing else in the
approvals table shape). -/
lemma approveRest_pending_allowed (st : DbState) (id : ℕ) (env : ApproveEnv)
    (opp : PendingOpp)
    (hfind : pendingGetById st.pending id = some opp)
    (hp : opp.status = "pending")
    (hall : (canTrade st opp.toOpportunity env.bal).2.allowed = true) :
    (approveRest st id env).1.pending
      = pendingUpdateStatus st.pending opp.id
        (if (executeTrade st opp.toOpportunity env.exec).2.success
         then "approved" else "failed") := by
  have hst := canTrade_allowed_state _ _ _ hall
  simp only [approveRest, hfind]
  rw [if_neg (by simp [hp]), if_neg (by simp [hall]), hst,
      executeTrade_state_pending]

/-- In the denied branch, the approve route returns `canTrade`'s
post-state unchanged. -/
lemma approveRest_state_denied (st : DbState) (id : ℕ) (env : ApproveEnv)
    (opp : PendingOpp)
    (hfind : pendingGetById st.pending id = some opp)
    (hp : opp.status = "pending")
    (hall : ¬ (canTrade st opp.toOpportunity env.bal).2.allowed = true) :
    (approveRest st id env).1 = (canTrade st opp.toOpportunity env.bal).1 := by
  simp only [approveRest, hfind]
  rw [if_neg (by simp [hp]), if_pos (by simp [hall])]

/-- Core of the no-bypass argument for the approve route: a Trade row
appears only when the row was `'pending'` and the gate allowed, and the
row reaches `'approved'` only when additionally the execution
succeeded. -/
lemma approve_no_bypass_aux (st : DbState) (id : ℕ) (env : ApproveEnv)
    (huniq : st.pending.Pairwise (fun a b => a.id ≠ b.id)) :
    (st.trades.length < (approveRest st id env).1.trades.length →
      ∃ opp, pendingGetById st.pending id = some opp ∧ opp.status = "pending" ∧
        (canTrade st opp.toOpportunity env.bal).2.allowed = true) ∧
    (∀ opp, pendingGetById st.pending id = some opp → opp.status ≠ "approved" →
      (∃ row, pendingGetById (approveRest st id env).1.pending id = some row ∧
        row.status = "approved") →
      opp.status = "pending" ∧
      (canTrade st opp.toOpportunity env.bal).2.allowed = true ∧
      (executeTrade st opp.toOpportunity env.exec).2.success = true) := by
  constructor
  · cases hfind : pendingGetById st.pending id with
    | none =>
      intro h
      have hpost : (approveRest st id env).1 = st := by simp [approveRest, hfind]
      rw [hpost] at h
      exact absurd h (lt_irrefl _)
    | some opp =>
      by_cases hp : opp.status = "pending"
      · by_cases hall : (canTrade st opp.toOpportunity env.bal).2.allowed = true
        · intro _
          exact ⟨opp, rfl, hp, hall⟩
        · intro h
          rw [approveRest_state_denied st id env opp hfind hp hall,
              canTrade_state_trades] at h
          exact absurd h (lt_irrefl _)
      · intro h
        have hpost : (approveRest st id env).1 = st := by
          simp only [approveRest, hfind]
          rw [if_pos hp]
        rw [hpost] at h
        exact absurd h (lt_irrefl _)
  · intro opp hfind hnapp hrow
    obtain ⟨row, hrowf, happ⟩ := hrow
    by_cases hp : opp.status = "pending"
    · by_cases hall : (canTrade st opp.toOpportunity env.bal).2.allowed = true
      · have hid : opp.id = id := by simpa using List.find?_some hfind
        have hpost := approveRest_pending_allowed st id env opp hfind hp hall
        rw [hpost, hid, pendingGetById_updateStatus, hfind] at hrowf
        simp only [Option.map_some'] at hrowf
        cases Option.some.inj hrowf
        have happ' : (if (executeTrade st opp.toOpportunity env.exec).2.success
            then "approved" else "failed") = "approved" := happ
        by_cases hsucc : (executeTrade st opp.toOpportunity env.exec).2.success = true
        · exact ⟨hp, hall, hsucc⟩
        · rw [if_neg hsucc] at happ'
          exact absurd happ' (by decide)
      · have hpost := approveRest_state_denied st id env opp hfind hp hall
        rw [hpost] at hrowf
        cases canTrade_state_pending st opp.toOpportunity env.bal with
        | inl hsame =>
          rw [hsame, hfind] at hrowf
          cases Option.some.inj hrowf
          exact absurd happ hnapp
        | inr hdel =>
          rw [hdel,
              pendingGetById_deleteAll_of_pending st.pending id opp huniq hfind hp]
            at hrowf
          cases hrowf
    · have hpost : (approveRest st id env).1 = st := by
        simp only [approveRest, hfind]
        rw [if_pos hp]
      rw [hpost, hfind] at hrowf
      cases Option.some.inj hrowf
      exact absurd happ hnapp

/-- Claim C1: no bypass path.  In every entry point that can start an
execution — one scan-loop iteration, the REST approve route, the
websocket approve handler — a Trade row is created only when the
`canTrade` gate evaluated on the triggering opportunity in that entry
allowed, and an approval row reaches `'approved'` only when the row was
`'pending'`, the gate allowed at the transition, and the execution
succeeded.  (The Pairwise hypothesis is the primary-key uniqueness of
`pending_approvals.id`.) -/
theorem claim_C1_no_bypass :
    (∀ st (opp : DetectedOpp) (env : ScanEnv),
      st.trades.length < (processOpportunity st opp env).trades.length →
      (canTrade st opp.toOpportunity env.bal).2.allowed = true) ∧
    (∀ st id env, st.pending.Pairwise (fun a b => a.id ≠ b.id) →
      (st.trades.length < (approveRest st id env).1.trades.length →
        ∃ opp, pendingGetById st.pending id = some opp ∧ opp.status = "pending" ∧
          (canTrade st opp.toOpportunity env.bal).2.allowed = true) ∧
      (∀ opp, pendingGetById st.pending id = some opp → opp.status ≠ "approved" →
        (∃ row, pendingGetById (approveRest st id env).1.pending id = some row ∧
          row.status = "approved") →
        opp.status = "pending" ∧
        (canTrade st opp.toOpportunity env.bal).2.allowed = true ∧
        (executeTrade st opp.toOpportunity env.exec).2.success = true)) ∧
    (∀ st id env, st.pending.Pairwise (fun a b => a.id ≠ b.id) →
      (st.trades.length < (approveWs st id env).1.trades.length →
        ∃ opp, pendingGetById st.pending id = some opp ∧ opp.status = "pending" ∧
          (canTrade st opp.toOpportunity env.bal).2.allowed = true) ∧
      (∀ opp, pendingGetById st.pending id = some opp → opp.status ≠ "approved" →
        (∃ row, pendingGetById (approveWs st id env).1.pending id = some row ∧
          row.status = "approved") →
        opp.status = "pending" ∧
        (canTrade st opp.toOpportunity env.bal).2.allowed = true ∧
        (executeTrade st opp.toOpportunity env.exec).2.success = true)) := by
  refine ⟨?_, ?_, ?_⟩
  · intro st opp env h
    simp only [processOpportunity] at h
    split at h
    · exact absurd h (lt_irrefl _)
    · split at h
      · rw [canTrade_state_trades] at h
        exact absurd h (lt_irrefl _)
      · rename_i hall
        simpa using hall
  · intro st id env huniq
    exact approve_no_bypass_aux st id env huniq
  · intro st id env huniq
    have haux := approve_no_bypass_aux st id env huniq
    constructor
    · intro h
      rw [approveWs_state_eq] at h
      exact haux.1 h
    · intro opp hfind hnapp hrow
      obtain ⟨row, hrowf, happ⟩ := hrow
      rw [approveWs_state_eq] at hrowf
      exact haux.2 opp hfind hnapp ⟨row, hrowf, happ⟩

/-- Settings for an auto-mode scan cycle (threshold 0 keeps the
fixture's arithmetic trivial). -/
def wSettingsAuto : Settings where
  position_size := 10
  profit_threshold := 0
  auto_mode := true
  kill_switch := false
  daily_loss_limit := 50
  max_open_positions := 10
  active_currencies := []
  scan_interval_ms := 30000

/-- The baseline database in auto mode. -/
def wStateAuto : DbState := { wState with settings := wSettingsAuto }

/-- The concrete opportunity as the detector would hand it to the scan
loop. -/
def wDet : DetectedOpp := { wOpp with total_cost := 3 }

/-- Scan-cycle external responses: healthy balance, both legs place. -/
def wScanEnv : ScanEnv where
  bal := wBal
  exec := wEnvOk

/-- Witness for C1 on the scan loop: a cycle that did create a trade
had a passing gate. -/
theorem claim_C1_no_bypass_witness :
    (canTrade wStateAuto wDet.toOpportunity wScanEnv.bal).2.allowed = true :=
  claim_C1_no_bypass.1 wStateAuto wDet wScanEnv (by
    norm_num [processOpportunity, pendingGetPending, canTrade, tradesCountOpen,
      jsLtUndef, executeTrade, tradesUpdate, newTradeRow, wStateAuto, wState,
      wSettingsAuto, wOpp, wBal, wScanEnv, wDet, wEnvOk])

/-! ### Claims about trade/opportunity terminality (corrected) -/

/-- A trade that already reached the `'settled'` terminal status. -/
def wSettledTrade : Trade where
  id := 1
  market_id := "m1"
  market_question := "q"
  yes_token_id := "yt"
  no_token_id := "nt"
  yes_order_id := some "oy"
  no_order_id := some "on"
  yes_price := 1
  no_price := 1
  total_cost := 2
  position_size := 10
  expected_profit := 3
  status := "settled"
  settlement_result := some "YES"
  actual_profit := some 1

/-- Counterexample to claim C2 as stated: `cancelTrade` on a
`'settled'` trade changes its status to `'cancelled'` — the three
statuses are not terminal. -/
theorem claim_C2_counterexample_settled_cancelled :
    (tradesGetById ({ wState with trades := [wSettledTrade] }).trades 1).map
      Trade.status = some "settled" ∧
    (tradesGetById (cancelTrade { wState with trades := [wSettledTrade] } 1
      { yesCancelOk := true, noCancelOk := true }).1.trades 1).map
      Trade.status = some "cancelled" := by
  decide

/-- Claim C2 (amended): `'settled'`/`'cancelled'`/`'failed'` are not
enforced as terminal.  `cancelTrade` sets any existing trade's status
to `'cancelled'` and `processSettlement` rewrites it to `'settled'`
regardless of the current status; `checkOrderStatus` leaves the status
unchanged only when neither leg's fetched exchange status is
`'MATCHED'` or `'CANCELLED'`. -/
theorem claim_C2_amended_not_terminal :
    (∀ st tid env tr, tradesGetById st.trades tid = some tr →
      tradesGetById (cancelTrade st tid env).1.trades tid
        = some { tr with status := "cancelled" }) ∧
    (∀ st (tr : Trade) res,
      tradesGetById (processSettlement st tr res).1.trades tr.id
        = (tradesGetById st.trades tr.id).map (fun t =>
            { t with
              status := "settled"
              settlement_result := some res
              actual_profit :=
                some (tr.position_size / tr.total_cost * (1 - tr.total_cost)) })) ∧
    (∀ st tr fetch,
      legStatus tr.yes_order_id fetch ≠ some "MATCHED" →
      legStatus tr.no_order_id fetch ≠ some "MATCHED" →
      legStatus tr.yes_order_id fetch ≠ some "CANCELLED" →
      legStatus tr.no_order_id fetch ≠ some "CANCELLED" →
      (checkOrderStatus st tr fetch).1 = st) := by
  refine ⟨?_, ?_, ?_⟩
  · intro st tid env tr htr
    simp only [cancelTrade, htr]
    rw [tradesGetById_update st.trades tid
        (fun t => { t with status := "cancelled" }) (fun t => rfl), htr]
    rfl
  · intro st tr res
    simp only [processSettlement]
    rw [tradesGetById_update st.trades tr.id
        (fun t =>
          { t with
            status := "settled"
            settlement_result := some res
            actual_profit :=
              some (tr.position_size / tr.total_cost * (1 - tr.total_cost)) })
        (fun t => rfl)]
  · intro st tr fetch hy1 hn1 hy2 hn2
    have h1 : (legStatus tr.yes_order_id fetch == some "MATCHED") = false := by
      simpa using hy1
    have h2 : (legStatus tr.no_order_id fetch == some "MATCHED") = false := by
      simpa using hn1
    have h3 : (legStatus tr.yes_order_id fetch == some "CANCELLED") = false := by
      simpa using hy2
    have h4 : (legStatus tr.no_order_id fetch == some "CANCELLED") = false := by
      simpa using hn2
    simp [checkOrderStatus, h1, h2, h3, h4]

/-- Witness for the amended C2: `cancelTrade` flips the concrete
settled trade to `'cancelled'`. -/
theorem claim_C2_amended_not_terminal_witness :
    tradesGetById (cancelTrade { wState with trades := [wSettledTrade] } 1
      { yesCancelOk := true, noCancelOk := true }).1.trades 1
      = some { wSettledTrade with status := "cancelled" } :=
  claim_C2_amended_not_terminal.1 { wState with trades := [wSettledTrade] } 1
    { yesCancelOk := true, noCancelOk := true } wSettledTrade (by decide)

/-- A pending-approvals row that was already approved. -/
def wApprovedRow : PendingOpp where
  id := 1
  market_id := "m1"
  market_question := "q"
  yes_token_id := "yt"
  no_token_id := "nt"
  yes_price := 1
  no_price := 1
  spread := 1
  expected_profit := 1
  expires_at := none
  status := "approved"

/-- Counterexample to claim C3 as stated: the REST reject route sets an
`'approved'` opportunity to `'rejected'`. -/
theorem claim_C3_counterexample_approved_rejected :
    (pendingGetById ({ wState with pending := [wApprovedRow] }).pending 1).map
      PendingOpp.status = some "approved" ∧
    (pendingGetById (rejectRest { wState with pending := [wApprovedRow] } 1).1.pending
      1).map PendingOpp.status = some "rejected" := by
  decide

/-- Claim C3 (amended): only the approve path and the expiry sweep are
guarded — a non-`'pending'` opportunity cannot be approved (both
handlers leave the state unchanged) and is never expired — but the
reject action (REST route and websocket handler alike) sets the status
of any existing opportunity to `'rejected'` regardless of its current
status, so `'approved'`/`'rejected'`/`'expired'` are not immutable. -/
theorem claim_C3_amended_reject_unguarded :
    (∀ st id env opp, pendingGetById st.pending id = some opp →
      opp.status ≠ "pending" →
      (approveRest st id env).1 = st ∧ (approveWs st id env).1 = st) ∧
    (∀ (l : List PendingOpp) (now : ℚ), ∀ r ∈ l, r.status ≠ "pending" →
      r ∈ pendingExpireOld l now) ∧
    (∀ st id opp, pendingGetById st.pending id = some opp →
      pendingGetById (rejectRest st id).1.pending id
        = some { opp with status := "rejected" }) ∧
    (∀ st id, pendingGetById (rejectWs st id).pending id
      = (pendingGetById st.pending id).map (fun p => { p with status := "rejected" })) := by
  refine ⟨?_, ?_, ?_, ?_⟩
  · intro st id env opp h hs
    constructor <;> simp [approveRest, approveWs, h, hs]
  · intro l now r hr hs
    have heq : (if r.status == "pending" && (match r.expires_at with
        | some e => decide (e < now)
        | none => false) then { r with status := "expired" } else r) = r := by
      simp [hs]
    exact heq ▸ List.mem_map_of_mem _ hr
  · intro st id opp h
    have hid : opp.id = id := by simpa using List.find?_some h
    simp only [rejectRest, h]
    rw [hid, pendingGetById_updateStatus, h]
    simp [hid]
  · intro st id
    exact pendingGetById_updateStatus st.pending id "rejected"

/-- Witness for the amended C3: rejecting the concrete approved row
flips it to `'rejected'`. -/
theorem claim_C3_amended_reject_unguarded_witness :
    pendingGetById (rejectRest { wState with pending := [wApprovedRow] } 1).1.pending 1
      = some { wApprovedRow with status := "rejected" } :=
  claim_C3_amended_reject_unguarded.2.2.1 { wState with pending := [wApprovedRow] }
    1 wApprovedRow (by decide)

end Polybot
